import Mathlib

/-!
Verification of the repository's notebook glue code:

* the digital-farming geospatial notebooks (start/export/monitor earth
  observation jobs, pixel rescaling for visualization),
* the pipeline lambda dispatcher (`eoj_lambda.py`),
* the shadow-variant endpoint notebook (endpoint configuration and the
  endpoint polling loop).

Python loops polling an external API are embedded as fuel-indexed
recursions over a stream `statuses : Nat → String` of the values the
status-check API would return on successive polls; `none` means the fuel
ran out while the loop was still polling.  Python exceptions are embedded
as `Except` errors.
-/

/-! ## Polling loop of `start_earth_observation_job` (digital farming notebook) -/

/-- The `while gs_get_eoj_resp["Status"] == "IN_PROGRESS"` loop body:
poll status `i`; keep looping while it equals `"IN_PROGRESS"`.
Returns the index of the first poll whose status is not `"IN_PROGRESS"`. -/
def eojPollGo (statuses : Nat → String) : Nat → Nat → Option Nat
  | 0, _ => none
  | fuel + 1, i =>
    if statuses i = "IN_PROGRESS" then eojPollGo statuses fuel (i + 1) else some i

/-- Function `start_earth_observation_job`: starts the job (the service answers with
`eoj_arn`), then polls `get_earth_observation_job` every minute while the
status is `"IN_PROGRESS"`, and finally returns `eoj_arn`.  The result also
records the index of the final poll. -/
def start_earth_observation_job (eoj_arn : String) (statuses : Nat → String)
    (fuel : Nat) : Option (Nat × String) :=
  (eojPollGo statuses fuel 0).map (fun i => (i, eoj_arn))

lemma eojPollGo_sound (statuses : Nat → String) :
    ∀ (fuel i j : Nat), eojPollGo statuses fuel i = some j →
      i ≤ j ∧ statuses j ≠ "IN_PROGRESS" ∧
        ∀ k, i ≤ k → k < j → statuses k = "IN_PROGRESS" := by
  intro fuel
  induction fuel with
  | zero => intro i j h; exact absurd h (by simp [eojPollGo])
  | succ n ih =>
    intro i j h
    rw [eojPollGo] at h
    by_cases hip : statuses i = "IN_PROGRESS"
    · rw [if_pos hip] at h
      obtain ⟨h1, h2, h3⟩ := ih (i + 1) j h
      refine ⟨by omega, h2, ?_⟩
      intro k hk1 hk2
      by_cases hki : k = i
      · rw [hki]; exact hip
      · exact h3 k (by omega) hk2
    · rw [if_neg hip] at h
      cases h
      exact ⟨Nat.le_refl i, hip, fun k hk1 hk2 => absurd (Nat.lt_of_le_of_lt hk1 hk2) (Nat.lt_irrefl i)⟩

lemma eojPollGo_isSome (statuses : Nat → String) :
    ∀ (fuel i : Nat), (∃ j, i ≤ j ∧ j < i + fuel ∧ statuses j ≠ "IN_PROGRESS") →
      (eojPollGo statuses fuel i).isSome = true := by
  intro fuel
  induction fuel with
  | zero => intro i ⟨j, h1, h2, _⟩; omega
  | succ n ih =>
    intro i ⟨j, h1, h2, h3⟩
    rw [eojPollGo]
    by_cases hip : statuses i = "IN_PROGRESS"
    · rw [if_pos hip]
      refine ih (i + 1) ⟨j, ?_, by omega, h3⟩
      rcases Nat.eq_or_lt_of_le h1 with rfl | hlt
      · exact absurd hip h3
      · omega
    · rw [if_neg hip]; rfl

/-- C3: `start_earth_observation_job` never returns while the most recently
polled status equals `"IN_PROGRESS"` (every poll before the final one saw
`"IN_PROGRESS"`, and the final one did not), and it returns the started
job's ARN as soon as any status different from `"IN_PROGRESS"` is polled,
whatever that status is. -/
theorem start_eoj_polls_until_not_in_progress (arn : String) (statuses : Nat → String) :
    (∀ fuel j r, start_earth_observation_job arn statuses fuel = some (j, r) →
        r = arn ∧ statuses j ≠ "IN_PROGRESS" ∧ ∀ k, k < j → statuses k = "IN_PROGRESS")
    ∧ (∀ n, statuses n ≠ "IN_PROGRESS" →
        (start_earth_observation_job arn statuses (n + 1)).isSome = true) := by
  constructor
  · intro fuel j r h
    rw [start_earth_observation_job, Option.map_eq_some'] at h
    obtain ⟨i, hi, heq⟩ := h
    obtain ⟨rfl, rfl⟩ : i = j ∧ arn = r := Prod.mk.injEq .. ▸ heq
    obtain ⟨_, h2, h3⟩ := eojPollGo_sound statuses fuel 0 i hi
    exact ⟨rfl, h2, fun k hk => h3 k (Nat.zero_le k) hk⟩
  · intro n hn
    rw [start_earth_observation_job, Option.isSome_map']
    exact eojPollGo_isSome statuses (n + 1) 0 ⟨n, Nat.zero_le n, by omega, hn⟩

theorem start_eoj_witness :
    (start_earth_observation_job "arn-wit" (fun _ => "COMPLETED") 1).isSome = true :=
  (start_eoj_polls_until_not_in_progress "arn-wit" (fun _ => "COMPLETED")).2 0 (by decide)

/-! ## Polling loop of `wait_for_endpoint_in_service` (shadow-variant notebook) -/

/-- Function `wait_for_endpoint_in_service`: a `while True` loop polling `describe_endpoint`,
breaking exactly when the `EndpointStatus` is `"InService"` or `"Failed"`,
sleeping 30 seconds otherwise.  Returns the index of the poll at which the
loop broke. -/
def wait_for_endpoint_in_service (statuses : Nat → String) : Nat → Nat → Option Nat
  | 0, _ => none
  | fuel + 1, i =>
    if statuses i = "InService" ∨ statuses i = "Failed" then some i
    else wait_for_endpoint_in_service statuses fuel (i + 1)

/-- Modelled from the spec: the claim speaks of the status "transitioning
out of an in-progress state, i.e. eventually taking any value that is not a
creating/updating status".  These are the creating/updating endpoint
statuses of the external service. -/
def specCreatingOrUpdating (s : String) : Bool :=
  s == "Creating" || s == "Updating" || s == "SystemUpdating" || s == "RollingBack"

lemma wait_const_deleting : ∀ (fuel i : Nat),
    wait_for_endpoint_in_service (fun _ => "Deleting") fuel i = none := by
  intro fuel
  induction fuel with
  | zero => intro i; rfl
  | succ n ih =>
    intro i
    rw [wait_for_endpoint_in_service, if_neg (by decide)]
    exact ih (i + 1)

/-- C4 counterexample: the claim is false as stated.  The status stream
constantly `"Deleting"` eventually (immediately) takes a value that is not
a creating/updating status, yet the loop never breaks: it only breaks on
`"InService"` or `"Failed"`. -/
theorem wait_for_endpoint_counterexample :
    ¬ (∀ statuses : Nat → String,
        (∃ n, specCreatingOrUpdating (statuses n) = false) →
        ∃ fuel j, wait_for_endpoint_in_service statuses fuel 0 = some j) := by
  intro h
  obtain ⟨fuel, j, hj⟩ := h (fun _ => "Deleting") ⟨0, by decide⟩
  rw [wait_const_deleting] at hj
  exact Option.noConfusion hj

lemma wait_reaches (statuses : Nat → String) :
    ∀ (fuel i j : Nat), i ≤ j → j < i + fuel →
      (statuses j = "InService" ∨ statuses j = "Failed") →
      ∃ k, k ≤ j ∧ wait_for_endpoint_in_service statuses fuel i = some k := by
  intro fuel
  induction fuel with
  | zero => intro i j h1 h2; omega
  | succ n ih =>
    intro i j h1 h2 h3
    rw [wait_for_endpoint_in_service]
    by_cases hb : statuses i = "InService" ∨ statuses i = "Failed"
    · exact ⟨i, h1, by rw [if_pos hb]⟩
    · have hij : i ≠ j := fun he => hb (he ▸ h3)
      obtain ⟨k, hk1, hk2⟩ := ih (i + 1) j (by omega) (by omega) h3
      exact ⟨k, hk1, by rw [if_neg hb]; exact hk2⟩

/-- C4 amended: `wait_for_endpoint_in_service` terminates provided the
endpoint status eventually takes the value `"InService"` or `"Failed"`
(the two values its break condition tests); on any other value it keeps
polling. -/
theorem wait_for_endpoint_terminates_on_inservice_or_failed
    (statuses : Nat → String) (n : Nat)
    (h : statuses n = "InService" ∨ statuses n = "Failed") :
    ∃ k, k ≤ n ∧ wait_for_endpoint_in_service statuses (n + 1) 0 = some k :=
  wait_reaches statuses (n + 1) 0 n (Nat.zero_le n) (by omega) h

theorem wait_for_endpoint_witness :
    ∃ k, k ≤ 0 ∧ wait_for_endpoint_in_service (fun _ => "InService") 1 0 = some k :=
  wait_for_endpoint_terminates_on_inservice_or_failed (fun _ => "InService") 0 (Or.inl rfl)

/-! ## Export-monitoring loop over the three EOJs (digital farming notebook) -/

/-- One `get_earth_observation_job` answer as inspected by the export loop:
the job `Status` and, when the key is present, the `ExportStatus`. -/
structure EojExportResp where
  Status : String
  ExportStatus : Option String
deriving Repr, DecidableEq

/-- The body of the export-monitoring loop for one job: from the polled
response and the job's current `eoj_status` entry, produce the new entry
or raise.  When `Status` is `"COMPLETED"` and no `ExportStatus` key is
present the code calls `export_earth_observation_job` and leaves the entry
unchanged; unknown strings raise `Exception`. -/
def exportStep (resp : EojExportResp) (old : String) : Except String String :=
  if resp.Status = "COMPLETED" then
    match resp.ExportStatus with
    | none => .ok old
    | some es =>
      if es = "IN_PROGRESS" then .ok "Exporting"
      else if es = "SUCCEEDED" then .ok "Exported"
      else .error "Error exporting"
  else if resp.Status = "IN_PROGRESS" then .ok "In progress"
  else .error "Error with the EOJ"

/-- The inner `for j, eoj in enumerate(EOJs)` pass: each job's polled
response paired with its current status entry, processed left to right,
stopping at the first raised exception. -/
def exportRound : List (EojExportResp × String) → Except String (List String)
  | [] => .ok []
  | (resp, old) :: rest =>
    match exportStep resp old with
    | .error e => .error e
    | .ok s' =>
      match exportRound rest with
      | .error e => .error e
      | .ok ss => .ok (s' :: ss)

/-- Sequential application of full rounds of polling (no exit test):
the statuses after processing each given round in order. -/
def applyRounds : List (List EojExportResp) → List String → Except String (List String)
  | [], ss => .ok ss
  | r :: rest, ss =>
    match exportRound (r.zip ss) with
    | .error e => .error e
    | .ok ss' => applyRounds rest ss'

/-- The `while not all(i == "Exported" for i in eoj_status)` loop: test the
exit condition, then process one round of polls per remaining round of
responses.  `.ok true` is a normal exit, `.ok false` means the supplied
rounds ran out while the loop was still waiting, `.error` a raised
exception. -/
def runExportLoop : List (List EojExportResp) → List String → Except String Bool
  | rounds, ss =>
    if ss.all (· == "Exported") then .ok true
    else
      match rounds with
      | [] => .ok false
      | r :: rest =>
        match exportRound (r.zip ss) with
        | .error e => .error e
        | .ok ss' => runExportLoop rest ss'

lemma runExportLoop_exits_iff :
    ∀ (rounds : List (List EojExportResp)) (ss : List String),
      runExportLoop rounds ss = .ok true ↔
        ∃ n ss', applyRounds (List.take n rounds) ss = .ok ss' ∧
          ss'.all (· == "Exported") = true := by
  intro rounds
  induction rounds with
  | nil =>
    intro ss
    constructor
    · intro h
      rw [runExportLoop] at h
      by_cases hall : ss.all (· == "Exported") = true
      · exact ⟨0, ss, rfl, hall⟩
      · rw [if_neg hall] at h; cases h
    · rintro ⟨n, ss', h1, h2⟩
      rw [List.take_nil] at h1
      cases h1
      rw [runExportLoop, if_pos h2]
  | cons r rest ih =>
    intro ss
    constructor
    · intro h
      rw [runExportLoop] at h
      by_cases hall : ss.all (· == "Exported") = true
      · exact ⟨0, ss, rfl, hall⟩
      · rw [if_neg hall] at h
        rcases hr : exportRound (r.zip ss) with e | ss'
        · rw [hr] at h; cases h
        · rw [hr] at h
          obtain ⟨n, ss'', h1, h2⟩ := (ih ss').mp h
          exact ⟨n + 1, ss'', by rw [List.take_succ_cons, applyRounds, hr]; exact h1, h2⟩
    · rintro ⟨n, ss', h1, h2⟩
      rw [runExportLoop]
      by_cases hall : ss.all (· == "Exported") = true
      · rw [if_pos hall]
      · rw [if_neg hall]
        cases n with
        | zero =>
          rw [List.take_zero] at h1
          cases h1
          exact absurd h2 hall
        | succ m =>
          rw [List.take_succ_cons, applyRounds] at h1
          revert h1
          rcases hr : exportRound (r.zip ss) with e | t
          · intro h1; cases h1
          · intro h1
            exact (ih t).mpr ⟨m, ss', h1, h2⟩

/-- C5: the export-monitoring loop exits normally exactly when some round
of processing (with no exception raised on the way) leaves every status
entry `"Exported"`; an entry becomes `"Exported"` precisely when the job's
polled response has `Status` `"COMPLETED"` and `ExportStatus`
`"SUCCEEDED"`; and any polled string outside the known set — a `Status`
other than `"COMPLETED"`/`"IN_PROGRESS"`, or an `ExportStatus` other than
`"IN_PROGRESS"`/`"SUCCEEDED"` — raises an exception instead of retrying. -/
theorem export_loop_correct :
    (∀ (resp : EojExportResp) (old : String), old ≠ "Exported" →
        (exportStep resp old = .ok "Exported" ↔
          resp.Status = "COMPLETED" ∧ resp.ExportStatus = some "SUCCEEDED"))
    ∧ (∀ (resp : EojExportResp) (old : String),
        ((resp.Status ≠ "COMPLETED" ∧ resp.Status ≠ "IN_PROGRESS") ∨
          (resp.Status = "COMPLETED" ∧ ∃ es, resp.ExportStatus = some es ∧
            es ≠ "IN_PROGRESS" ∧ es ≠ "SUCCEEDED")) →
        ∃ e, exportStep resp old = .error e)
    ∧ (∀ (rounds : List (List EojExportResp)) (ss : List String),
        runExportLoop rounds ss = .ok true ↔
          ∃ n ss', applyRounds (List.take n rounds) ss = .ok ss' ∧
            ss'.all (· == "Exported") = true) := by
  refine ⟨?_, ?_, runExportLoop_exits_iff⟩
  · intro resp old hold
    obtain ⟨st, es⟩ := resp
    constructor
    · intro h
      by_cases hc : st = "COMPLETED"
      · subst hc
        cases es with
        | none => exact absurd (Except.ok.inj h) hold
        | some e =>
          by_cases hip : e = "IN_PROGRESS"
          · subst hip
            exact absurd (Except.ok.inj h) (by decide)
          · by_cases hs : e = "SUCCEEDED"
            · subst hs; exact ⟨rfl, rfl⟩
            · exact absurd h (by simp [exportStep, hip, hs])
      · by_cases hip2 : st = "IN_PROGRESS"
        · subst hip2
          exact absurd (Except.ok.inj h) (by decide)
        · exact absurd h (by simp [exportStep, hc, hip2])
    · rintro ⟨h1, h2⟩
      replace h1 : st = "COMPLETED" := h1
      replace h2 : es = some "SUCCEEDED" := h2
      subst h1
      subst h2
      rfl
  · intro resp old h
    obtain ⟨st, es⟩ := resp
    rcases h with ⟨h1, h2⟩ | ⟨h1, es', h2, h3, h4⟩
    · replace h1 : st ≠ "COMPLETED" := h1
      replace h2 : st ≠ "IN_PROGRESS" := h2
      exact ⟨"Error with the EOJ", by simp [exportStep, h1, h2]⟩
    · replace h1 : st = "COMPLETED" := h1
      replace h2 : es = some es' := h2
      subst h1
      subst h2
      exact ⟨"Error exporting", by simp [exportStep, h3, h4]⟩

theorem export_loop_witness :
    exportStep ⟨"COMPLETED", some "SUCCEEDED"⟩ "" = .ok "Exported" :=
  (export_loop_correct.1 ⟨"COMPLETED", some "SUCCEEDED"⟩ "" (by decide)).mpr ⟨rfl, rfl⟩

/-! ## Endpoint configuration with a shadow variant (shadow-variant notebook) -/

/-- One entry of `ProductionVariants` / `ShadowProductionVariants` in the
`create_endpoint_config` call. -/
structure VariantConfig where
  VariantName : String
  ModelName : String
  InstanceType : String
  InitialInstanceCount : Nat
  InitialVariantWeight : ℚ
deriving Repr, DecidableEq

/-- The arguments of the `create_endpoint_config` call. -/
structure EndpointConfigCall where
  EndpointConfigName : String
  ProductionVariants : List VariantConfig
  ShadowProductionVariants : List VariantConfig
deriving Repr, DecidableEq

/-- Name `model_name`: `f"DEMO-xgb-churn-pred-{datetime.now():...}"`, with the
timestamp abstracted as `ts`. -/
def model_name (ts : String) : String := "DEMO-xgb-churn-pred-" ++ ts

/-- Name `model_name2`: `f"DEMO-xgb-churn-pred2-{datetime.now():...}"`. -/
def model_name2 (ts : String) : String := "DEMO-xgb-churn-pred2-" ++ ts

/-- The `sm.create_endpoint_config(...)` call of the shadow-variant
notebook: one production variant at weight 1 over `model_name`, one shadow
variant at weight 0.5 over `model_name2`. -/
def create_endpoint_config_call (ts : String) : EndpointConfigCall :=
  { EndpointConfigName := "Shadow-EpConfig-" ++ ts
    ProductionVariants :=
      [{ VariantName := "production"
         ModelName := model_name ts
         InstanceType := "ml.m5.xlarge"
         InitialInstanceCount := 2
         InitialVariantWeight := 1 }]
    ShadowProductionVariants :=
      [{ VariantName := "shadow"
         ModelName := model_name2 ts
         InstanceType := "ml.m5.xlarge"
         InitialInstanceCount := 1
         InitialVariantWeight := 1/2 }] }

/-- C6: the endpoint configuration passed to `create_endpoint_config` has
exactly one production variant, of weight 1, and exactly one shadow
variant, of weight 0.5, and the two variants reference distinct model
names (for every timestamp the two generated names differ). -/
theorem shadow_endpoint_config_variants (ts : String) :
    (create_endpoint_config_call ts).ProductionVariants.map
        (fun v => v.InitialVariantWeight) = [1]
    ∧ (create_endpoint_config_call ts).ShadowProductionVariants.map
        (fun v => v.InitialVariantWeight) = [1/2]
    ∧ (create_endpoint_config_call ts).ProductionVariants.map
        (fun v => v.ModelName) = [model_name ts]
    ∧ (create_endpoint_config_call ts).ShadowProductionVariants.map
        (fun v => v.ModelName) = [model_name2 ts]
    ∧ model_name ts ≠ model_name2 ts := by
  refine ⟨rfl, rfl, rfl, rfl, ?_⟩
  intro h
  have h2 := congrArg String.length h
  simp [model_name, model_name2, String.length_append] at h2
  exact absurd h2 (by decide)

/-! ## `export_earth_observation_job` (digital farming notebook) -/

/-- The `OutputConfig["S3Data"]` dictionary of the export call. -/
structure S3DataConfig where
  S3Uri : String
  KmsKeyId : String
deriving Repr, DecidableEq

/-- The arguments of the `gsClient.export_earth_observation_job` call. -/
structure ExportEojCall where
  Arn : String
  ExecutionRoleArn : String
  OutputConfig : S3DataConfig
deriving Repr, DecidableEq

/-- Function `export_earth_observation_job(eoj_arn, role, bucket, prefix, task_suffix)`:
calls the export API with the given ARN and role and an S3 URI built by the
f-string `f"s3://{bucket}/{prefix}/{task_suffix}/"` with empty `KmsKeyId`. -/
def export_earth_observation_job (eoj_arn roleArn bucket prefixStr task_suffix : String) :
    ExportEojCall :=
  { Arn := eoj_arn
    ExecutionRoleArn := roleArn
    OutputConfig :=
      { S3Uri := s!"s3://{bucket}/{prefixStr}/{task_suffix}/"
        KmsKeyId := "" } }

/-- C7: `export_earth_observation_job` passes its arguments through to the
export API unchanged: the call receives exactly the given ARN and role,
and an `OutputConfig` whose S3 URI is exactly
`"s3://" ++ bucket ++ "/" ++ prefix ++ "/" ++ task_suffix ++ "/"` with an
empty `KmsKeyId`. -/
theorem export_eoj_passthrough (eoj_arn roleArn bucket prefixStr task_suffix : String) :
    (export_earth_observation_job eoj_arn roleArn bucket prefixStr task_suffix).Arn = eoj_arn
    ∧ (export_earth_observation_job eoj_arn roleArn bucket prefixStr task_suffix).ExecutionRoleArn
        = roleArn
    ∧ (export_earth_observation_job eoj_arn roleArn bucket prefixStr task_suffix).OutputConfig.S3Uri
        = "s3://" ++ bucket ++ "/" ++ prefixStr ++ "/" ++ task_suffix ++ "/"
    ∧ (export_earth_observation_job eoj_arn roleArn bucket prefixStr task_suffix).OutputConfig.KmsKeyId
        = "" := by
  refine ⟨rfl, rfl, ?_, rfl⟩
  simp [export_earth_observation_job, String.append_assoc]
  rfl

/-! ## Pixel rescaling in `visualize_cogt` (digital farming notebook) -/

/-- The per-pixel transformation applied by `visualize_cogt` to a non-visual
band: `arr = arr / 10000` then `arr[arr > 1] = 1`. -/
def rescaleClamp (x : ℚ) : ℚ :=
  if x / 10000 > 1 then 1 else x / 10000

/-- The array handed to `show(arr)` by `visualize_cogt`: rescaled and
clamped unless the band is `"visual"`, in which case it is unchanged. -/
def plottedPixels (band : String) (arr : List ℚ) : List ℚ :=
  if band ≠ "visual" then arr.map rescaleClamp else arr

/-- C8: for every raster array and band other than `"visual"`, after the
rescaling (division by 10000) and clamping steps every element of the
plotted array is at most 1; for the band `"visual"` the array is plotted
unchanged. -/
theorem visualize_cogt_pixels_bounded (arr : List ℚ) (band : String) :
    (band ≠ "visual" →
      ((plottedPixels band arr).all fun x => decide (x ≤ 1)) = true)
    ∧ plottedPixels "visual" arr = arr := by
  constructor
  · intro hb
    rw [plottedPixels, if_pos hb, List.all_eq_true]
    intro x hx
    obtain ⟨a, _, rfl⟩ := List.mem_map.mp hx
    rw [decide_eq_true_eq, rescaleClamp]
    by_cases hgt : a / 10000 > 1
    · rw [if_pos hgt]
    · rw [if_neg hgt]
      exact le_of_not_lt hgt
  · rw [plottedPixels, if_neg (by simp)]

theorem visualize_cogt_witness :
    ((plottedPixels "nir_mean" [(25000 : ℚ), 3]).all fun x => decide (x ≤ 1)) = true :=
  (visualize_cogt_pixels_bounded [(25000 : ℚ), 3] "nir_mean").1 (by decide)

/-! ## The pipeline lambda dispatcher (`eoj_lambda.py`) -/

/-- Membership of `pat` as a contiguous run in a list. -/
def listContains (pat : List Char) : List Char → Bool
  | [] => pat.isEmpty
  | c :: rest => pat.isPrefixOf (c :: rest) || listContains pat rest

/-- Python's `pat in s` substring test on strings. -/
def strContains (s pat : String) : Bool := listContains pat.toList s.toList

/-- One SQS record as the handler reads it: `json.loads(record["body"])`
giving the callback `token` and `arguments["eoj_arn"]`. -/
structure SqsRecord where
  token : String
  eoj_arn : String
deriving Repr, DecidableEq

/-- The incoming lambda event.  Keys the handler tests with `in` are
`Option`s; keys it only ever reads directly are plain strings. -/
structure Event where
  region : Option String
  eoj_name : Option String
  eoj_input_config : Option String
  eoj_config : String
  role : String
  eoj_output_config : Option String
  eoj_arn : String
  Records : Option (List SqsRecord)

/-- The fields of a `get_earth_observation_job` response the handler reads. -/
structure EojResponse where
  Status : String
  Arn : String
  ErrorDetails : String
deriving Repr, DecidableEq

/-- The external world the handler talks to: the ARN answered by
`start_earth_observation_job`, the ARN answered by
`export_earth_observation_job`, and the response of
`get_earth_observation_job` per polled ARN. -/
structure GsEnv where
  startArn : String
  exportArn : String
  getEoj : String → EojResponse

/-- The `InputConfig` the create branch builds from the event. -/
inductive InputConfig where
  | rasterQuery (s : String)
  | previousJobArn (s : String)
deriving Repr, DecidableEq

/-- Calls made to the geospatial client. -/
inductive GsCall where
  | startJob (name roleArn : String) (input : InputConfig) (jobConfig : String)
  | exportJob (arn roleArn outputConfig : String)
  | getJob (arn : String)
deriving Repr, DecidableEq

/-- Callback calls made to the orchestration (pipelines) service. -/
inductive SmCall where
  | stepSuccess (token outName outValue : String)
  | stepFailure (token reason : String)
deriving Repr, DecidableEq

/-- Python errors the handler can raise past its
`except botocore.exceptions.ClientError` guard. -/
inductive PyError where
  | keyError (key : String)
  | nameError (name : String)
  | attributeError (name : String)
  | exception (msg : String)
deriving Repr, DecidableEq

/-- The handler's return dictionary `{"statusCode": ..., "eoj_arn": ...}`. -/
structure LambdaReturn where
  statusCode : Nat
  eoj_arn : String
deriving Repr, DecidableEq

/-- The observable behaviour of one handler invocation: geospatial calls,
callback calls, and either the returned dictionary or the raised error. -/
structure HandlerOutput where
  gsCalls : List GsCall
  smCalls : List SmCall
  result : Except PyError LambdaReturn

/-- The `for record in event["Records"]` loop.  Each record's EOJ is
polled; on `"COMPLETED"` a step-success callback is sent, on `"FAILED"` a
step-failure callback with the job's `ErrorDetails`; on `"SUCCEEDED"` the
code looks up the misspelled client method
`send_pipeline_execution_step_sucess`, which raises `AttributeError`; any
other status raises `Exception` so the message is requeued.  The result
carries the last polled response (the `response` variable), `none` when
the list is empty and the variable stays unbound. -/
def processRecords (env : GsEnv) : List SqsRecord →
    List GsCall × List SmCall × Except PyError (Option EojResponse)
  | [] => ([], [], Except.ok none)
  | r :: rest =>
    let resp := env.getEoj r.eoj_arn
    if resp.Status = "COMPLETED" then
      let tail := processRecords env rest
      (GsCall.getJob r.eoj_arn :: tail.1,
        SmCall.stepSuccess r.token "eoj_status" resp.Status :: tail.2.1,
        tail.2.2.map (fun o => some (o.getD resp)))
    else if resp.Status = "SUCCEEDED" then
      ([GsCall.getJob r.eoj_arn], [],
        Except.error (PyError.attributeError "send_pipeline_execution_step_sucess"))
    else if resp.Status = "FAILED" then
      let tail := processRecords env rest
      (GsCall.getJob r.eoj_arn :: tail.1,
        SmCall.stepFailure r.token resp.ErrorDetails :: tail.2.1,
        tail.2.2.map (fun o => some (o.getD resp)))
    else
      ([GsCall.getJob r.eoj_arn], [],
        Except.error (PyError.exception "EOJ or export still running..."))

/-- Function `lambda_handler`: dispatches on the shape of the event.  When
`"eoj_name"` is a key it starts an EOJ (the input config is a raster query
when the string contains `"RasterDataCollectionQuery"`, a chained job when
it contains `"arn"`, and otherwise the local `input_config` is never
assigned, so its use raises `NameError`); else when `"eoj_output_config"`
is a key it exports; else when `"Records"` is a key it processes the
records; with none of the keys the `response` variable stays unbound, the
trailing `except NameError` guard turns it into `None`, and the handler
returns `{"statusCode": 200, "eoj_arn": ""}`. -/
def lambda_handler (env : GsEnv) (event : Event) : HandlerOutput :=
  match event.eoj_name with
  | some name =>
    match event.eoj_input_config with
    | none => ⟨[], [], Except.error (PyError.keyError "eoj_input_config")⟩
    | some ic =>
      if strContains ic "RasterDataCollectionQuery" then
        ⟨[GsCall.startJob name event.role (InputConfig.rasterQuery ic) event.eoj_config], [],
          Except.ok ⟨200, env.startArn⟩⟩
      else if strContains ic "arn" then
        ⟨[GsCall.startJob name event.role (InputConfig.previousJobArn ic) event.eoj_config], [],
          Except.ok ⟨200, env.startArn⟩⟩
      else
        ⟨[], [], Except.error (PyError.nameError "input_config")⟩
  | none =>
    match event.eoj_output_config with
    | some oc =>
      ⟨[GsCall.exportJob event.eoj_arn event.role oc], [], Except.ok ⟨200, env.exportArn⟩⟩
    | none =>
      match event.Records with
      | some records =>
        let pr := processRecords env records
        ⟨pr.1, pr.2.1,
          match pr.2.2 with
          | Except.error e => Except.error e
          | Except.ok none => Except.ok ⟨200, ""⟩
          | Except.ok (some resp) => Except.ok ⟨200, resp.Arn⟩⟩
      | none => ⟨[], [], Except.ok ⟨200, ""⟩⟩

/-- The three-way dispatch of the handler, in source order. -/
inductive Branch where
  | createJob
  | exportResults
  | callback
  | noop
deriving Repr, DecidableEq

/-- The `if "eoj_name" in event / elif "eoj_output_config" in event /
elif "Records" in event` chain. -/
def selectedBranch (e : Event) : Branch :=
  match e.eoj_name with
  | some _ => Branch.createJob
  | none =>
    match e.eoj_output_config with
    | some _ => Branch.exportResults
    | none =>
      match e.Records with
      | some _ => Branch.callback
      | none => Branch.noop

/-- Which kind of geospatial call belongs to which branch. -/
def callMatchesBranch : Branch → GsCall → Bool
  | Branch.createJob, GsCall.startJob .. => true
  | Branch.exportResults, GsCall.exportJob .. => true
  | Branch.callback, GsCall.getJob _ => true
  | _, _ => false

lemma processRecords_calls_getJob (env : GsEnv) :
    ∀ (rs : List SqsRecord) (c : GsCall),
      c ∈ (processRecords env rs).1 → ∃ a, c = GsCall.getJob a := by
  intro rs
  induction rs with
  | nil =>
    intro c hc
    simp [processRecords] at hc
  | cons r rest ih =>
    intro c hc
    by_cases h1 : (env.getEoj r.eoj_arn).Status = "COMPLETED"
    · simp only [processRecords, h1, if_true, List.mem_cons, if_pos] at hc
      rcases hc with rfl | hc
      · exact ⟨r.eoj_arn, rfl⟩
      · exact ih c hc
    · by_cases h2 : (env.getEoj r.eoj_arn).Status = "SUCCEEDED"
      · simp [processRecords, h1, h2] at hc
        exact ⟨r.eoj_arn, hc⟩
      · by_cases h3 : (env.getEoj r.eoj_arn).Status = "FAILED"
        · simp [processRecords, h1, h2, h3] at hc
          rcases hc with rfl | hc
          · exact ⟨r.eoj_arn, rfl⟩
          · exact ih c hc
        · simp [processRecords, h1, h2, h3] at hc
          exact ⟨r.eoj_arn, hc⟩

/-- C1: the dispatch of `lambda_handler` selects the create branch exactly
when `"eoj_name"` is a key of the event; otherwise the export branch
exactly when `"eoj_output_config"` is a key; otherwise the callback branch
exactly when `"Records"` is a key — so on any single invocation the three
branches are mutually exclusive, and the geospatial calls the handler
makes all belong to the selected branch. -/
theorem lambda_dispatch_exclusive (env : GsEnv) (e : Event) :
    ((selectedBranch e = Branch.createJob ↔ e.eoj_name ≠ none)
      ∧ (selectedBranch e = Branch.exportResults ↔
          e.eoj_name = none ∧ e.eoj_output_config ≠ none)
      ∧ (selectedBranch e = Branch.callback ↔
          e.eoj_name = none ∧ e.eoj_output_config = none ∧ e.Records ≠ none))
    ∧ (lambda_handler env e).gsCalls.all
        (fun c => callMatchesBranch (selectedBranch e) c) = true := by
  obtain ⟨reg, en, eic, ecf, erl, eoc, earn, erec⟩ := e
  constructor
  · cases en <;> cases eoc <;> cases erec <;> simp [selectedBranch]
  · cases en with
    | some name =>
      cases eic with
      | none => simp [lambda_handler, selectedBranch]
      | some ic =>
        by_cases h1 : strContains ic "RasterDataCollectionQuery" = true
        · simp [lambda_handler, selectedBranch, h1, callMatchesBranch]
        · by_cases h2 : strContains ic "arn" = true
          · simp [lambda_handler, selectedBranch, h1, h2, callMatchesBranch]
          · simp [lambda_handler, selectedBranch, h1, h2]
    | none =>
      cases eoc with
      | some oc => simp [lambda_handler, selectedBranch, callMatchesBranch]
      | none =>
        cases erec with
        | none => simp [lambda_handler, selectedBranch]
        | some records =>
          simp only [lambda_handler, selectedBranch, List.all_eq_true]
          intro c hc
          obtain ⟨a, rfl⟩ := processRecords_calls_getJob env records c hc
          rfl

/-- A geospatial environment in which every `get_earth_observation_job`
answer has status `"SUCCEEDED"`. -/
def envSucceeded : GsEnv :=
  { startArn := ""
    exportArn := ""
    getEoj := fun a => { Status := "SUCCEEDED", Arn := a, ErrorDetails := "export error" } }

/-- An event whose only branch key is `"Records"`, carrying one record. -/
def evRecords1 : Event :=
  { region := none
    eoj_name := none
    eoj_input_config := none
    eoj_config := ""
    role := ""
    eoj_output_config := none
    eoj_arn := ""
    Records := some [⟨"tok-1", "arn-1"⟩] }

theorem lambda_dispatch_witness :
    (lambda_handler envSucceeded evRecords1).gsCalls.all
      (fun c => callMatchesBranch (selectedBranch evRecords1) c) = true :=
  (lambda_dispatch_exclusive envSucceeded evRecords1).2

/-- C2 (code bug): on a `"Records"` event whose polled job status is
`"SUCCEEDED"`, the handler does not send a success signal: the branch
looks up the misspelled client method
`send_pipeline_execution_step_sucess`, so the invocation raises
`AttributeError` with no callback call made. -/
theorem lambda_succeeded_status_raises_attribute_error :
    lambda_handler envSucceeded evRecords1 =
      ⟨[GsCall.getJob "arn-1"], [],
        Except.error (PyError.attributeError "send_pipeline_execution_step_sucess")⟩ := rfl

/-- C9: an event containing none of the keys `"eoj_name"`,
`"eoj_output_config"`, `"Records"` makes no geospatial or orchestration
call and returns exactly `{"statusCode": 200, "eoj_arn": ""}`. -/
theorem lambda_no_keys_returns_empty_arn (env : GsEnv) (e : Event)
    (h1 : e.eoj_name = none) (h2 : e.eoj_output_config = none)
    (h3 : e.Records = none) :
    lambda_handler env e = ⟨[], [], Except.ok ⟨200, ""⟩⟩ := by
  obtain ⟨reg, en, eic, ecf, erl, eoc, earn, erec⟩ := e
  replace h1 : en = none := h1
  replace h2 : eoc = none := h2
  replace h3 : erec = none := h3
  subst h1
  subst h2
  subst h3
  rfl

/-- An event with none of the three branch keys. -/
def evEmpty : Event :=
  { region := none
    eoj_name := none
    eoj_input_config := none
    eoj_config := ""
    role := ""
    eoj_output_config := none
    eoj_arn := ""
    Records := none }

theorem lambda_no_keys_witness :
    lambda_handler envSucceeded evEmpty = ⟨[], [], Except.ok ⟨200, ""⟩⟩ :=
  lambda_no_keys_returns_empty_arn envSucceeded evEmpty rfl rfl rfl

/-- C10: in the job-creation branch, when the input-config string contains
neither `"RasterDataCollectionQuery"` nor `"arn"`, the local
`input_config` is never assigned and the handler fails with an unhandled
`NameError` before any geospatial call is made. -/
theorem lambda_create_branch_name_error (env : GsEnv) (e : Event)
    (name ic : String)
    (h1 : e.eoj_name = some name) (h2 : e.eoj_input_config = some ic)
    (h3 : strContains ic "RasterDataCollectionQuery" = false)
    (h4 : strContains ic "arn" = false) :
    lambda_handler env e = ⟨[], [], Except.error (PyError.nameError "input_config")⟩ := by
  obtain ⟨reg, en, eic, ecf, erl, eoc, earn, erec⟩ := e
  replace h1 : en = some name := h1
  replace h2 : eic = some ic := h2
  subst h1
  subst h2
  simp [lambda_handler, h3, h4]

/-- An event entering the create branch with a config string containing
neither expected substring. -/
def evCreateBad : Event :=
  { region := none
    eoj_name := some "job1"
    eoj_input_config := some "xyz"
    eoj_config := ""
    role := "r"
    eoj_output_config := none
    eoj_arn := ""
    Records := none }

theorem lambda_name_error_witness :
    lambda_handler envSucceeded evCreateBad =
      ⟨[], [], Except.error (PyError.nameError "input_config")⟩ :=
  lambda_create_branch_name_error envSucceeded evCreateBad "job1" "xyz" rfl rfl
    (by decide) (by decide)
